import Mathlib

/- Shallow embedding of src/server.js: a Stremio addon server that scrapes
Bitsearch and integrates with Real-Debrid.  JavaScript strings are Lean
`String`s; the JS string methods used by the source (`includes`, `split`,
`toLowerCase`, `trim`, `padStart`, `join`) are embedded as executable helper
functions on `List Char` / `String`.  Network calls are modelled by an
explicit `World` of oracles returning `Except Unit` results (an `error`
models a thrown/rejected axios call), and every outbound call is recorded in
a `NetCall` log so that frame ("no network call") properties are statable. -/

/-- JS `pat.length ≤ hay.length` prefix test on char lists:
`startsWithChars pat hay` is `true` iff `pat` is a prefix of `hay`. -/
def startsWithChars : List Char → List Char → Bool
  | [], _ => true
  | _ :: _, [] => false
  | p :: ps, c :: cs => p == c && startsWithChars ps cs

/-- JS `String.prototype.includes` on char lists: does `pat` occur as a
contiguous (case-sensitive) substring of `hay`?  `includes("")` is `true`. -/
def containsChars (pat : List Char) : List Char → Bool
  | [] => startsWithChars pat []
  | c :: rest => startsWithChars pat (c :: rest) || containsChars pat rest

/-- JS `s.includes(pat)`: case-sensitive substring containment. -/
def jsIncludes (s pat : String) : Bool :=
  containsChars pat.data s.data

/-- JS `s.toLowerCase()` (ASCII behaviour, which is all the source relies on). -/
def toLowerCase (s : String) : String :=
  ⟨s.data.map Char.toLower⟩

/-- JS `s.trim()`: strip whitespace from both ends. -/
def trimStr (s : String) : String :=
  ⟨((s.data.dropWhile Char.isWhitespace).reverse.dropWhile Char.isWhitespace).reverse⟩

/-- JS `s.padStart(n, c)`: left-pad `s` with `c` up to length `n`. -/
def padStart (s : String) (n : Nat) (c : Char) : String :=
  ⟨List.replicate (n - s.data.length) c ++ s.data⟩

/-- Accumulator loop for `jsSplit`: split a char list on a separator char. -/
def splitOnCharAux (sep : Char) : List Char → List Char → List (List Char)
  | [], acc => [acc.reverse]
  | c :: rest, acc =>
    if c == sep then acc.reverse :: splitOnCharAux sep rest []
    else splitOnCharAux sep rest (c :: acc)

/-- JS `s.split(sep)` for a single-character separator (the source splits on
`':'` and `','`).  `"".split(sep)` is `[""]`, as in JS. -/
def jsSplit (s : String) (sep : Char) : List String :=
  (splitOnCharAux sep s.data []).map fun l => ⟨l⟩

/-- JS `hashes.join('/')`. -/
def joinSlash : List String → String
  | [] => ""
  | [h] => h
  | h :: t => h ++ "/" ++ joinSlash t

/-- JS truthiness of a `string | undefined` value: defined and non-empty. -/
def jsTruthyStrOpt : Option String → Bool
  | none => false
  | some s => !(s == "")

/-- JS falsiness of a `string | undefined` value (`!x` in the source). -/
def jsFalsyStrOpt (o : Option String) : Bool :=
  !(jsTruthyStrOpt o)

/-- A primitive JSON value as it may appear in the decoded config's
`fallback` field (the source compares it against both `'true'` and `true`). -/
inductive JsPrim where
  | str (s : String)
  | bool (b : Bool)
deriving DecidableEq

/-- The source's test `fallback === 'true' || fallback === true` (line 132). -/
def jsFallbackTrue : Option JsPrim → Bool
  | some (JsPrim.str "true") => true
  | some (JsPrim.bool true) => true
  | _ => false

/-- The decoded addon configuration
`{ realdebridKey, quality, codec, audio, fallback, exclude }` (line 93).
Absent JSON fields are `none`. -/
structure Config where
  realdebridKey : Option String
  quality : Option String
  codec : Option String
  audio : Option String
  fallback : Option JsPrim
  exclude : Option String
deriving DecidableEq

/-- A scraped search-result candidate `{ title, magnet }` (line 205). -/
structure Candidate where
  title : String
  magnet : String
deriving DecidableEq

/-- A parsed Bitsearch result row: its title text and, when the row exposes
an `a[href^="magnet:"]` anchor, that magnet link (lines 192-193). -/
structure Row where
  title : String
  magnet : Option String
deriving DecidableEq

/-- View of a `Candidate` as the result row it was scraped from. -/
def Candidate.toRow (c : Candidate) : Row :=
  { title := c.title, magnet := some c.magnet }

/-- A stream entry `{ title, url }` returned to Stremio (lines 255-258, 299-302). -/
structure StreamResult where
  title : String
  url : String
deriving DecidableEq

/-- One outbound network call made by the pipeline, recorded for frame
properties.  `cinemeta` is the title lookup (line 159), `bitsearch` the
scrape GET (line 175), the other four are the Real-Debrid API calls. -/
inductive NetCall where
  | cinemeta (imdbId : String)
  | bitsearch (query : String)
  | instantAvailability (hashes : String)
  | unrestrictLink (link : String)
  | addMagnet (magnet : String)
  | selectFiles (torrentId : String)
deriving DecidableEq

/-- The external world: responses of the collaborators the server calls, plus
the outcome of decoding the base64/JSON config blob (line 92; JSON.parse is
the one operation inside the handler's `try` that can throw, modelled by
`Except.error`).  `instantAvailability` maps (key, joined hashes) to the
service's hash → cached-file-links mapping in report order; `addMagnet`
returns the response's optional `id` field. -/
structure World where
  parseConfig : String → Except Unit Config
  cinemeta : String → Except Unit (Option String)
  bitsearch : String → Except Unit (List Row)
  instantAvailability : String → String → Except Unit (List (String × List String))
  unrestrict : String → String → Except Unit String
  addMagnet : String → String → Except Unit (Option String)
  selectFiles : String → String → Except Unit Unit

/-- The regex literal `xt=urn:btih:` of line 224, as a char list. -/
def btihMarker : List Char :=
  "xt=urn:btih:".data

/-- One position of the regex scan `/xt=urn:btih:([a-zA-Z0-9]+)/`: the
pattern matches at the head of `l` iff the literal marker is a prefix and at
least one `[a-zA-Z0-9]` character follows; the capture is the maximal
alphanumeric run (`Char.isAlphanum` is exactly `[a-zA-Z0-9]`). -/
def btihAt (l : List Char) : Option (List Char) :=
  let run := List.takeWhile Char.isAlphanum (List.drop btihMarker.length l)
  if startsWithChars btihMarker l && !(run.length == 0) then some run else none

/-- Leftmost-match regex scan: try the pattern at every position. -/
def extractBtih : List Char → Option (List Char)
  | [] => none
  | c :: rest =>
    match btihAt (c :: rest) with
    | some run => some run
    | none => extractBtih rest

/-- `magnet.match(/xt=urn:btih:([a-zA-Z0-9]+)/)` of line 224: the first
capture group of the leftmost match, or `none` when the regex does not match. -/
def extractHash (uri : String) : Option String :=
  match extractBtih uri.data with
  | none => none
  | some run => some ⟨run⟩

/-- Lines 223-226: `magnets.map(m => match ...).filter(hash => hash)` — the
hashes extractable from a candidate list, in order, dropping candidates with
no extractable hash.  (The regex capture is never the empty string, so the
JS falsy filter coincides with dropping `null`s.) -/
def deriveHashes (magnets : List Candidate) : List String :=
  magnets.filterMap fun m => extractHash m.magnet

/-- Lines 186-189: turn an optional comma-separated preference string into a
lower-cased, trimmed term list; a missing or empty string yields `[]`. -/
def toTermList : Option String → List String
  | none => []
  | some s => if s == "" then [] else (jsSplit s ',').map fun x => trimStr (toLowerCase x)

/-- The row loop of `scrapeBitsearch` (lines 191-208): keep each row that has
a magnet link and whose lower-cased title passes the quality/codec/audio
include filters (an empty list passes everything) and the exclude filter
(any hit rejects). -/
def scrapeRows (rows : List Row) (qualityList codecList audioList excludeList : List String) :
    List Candidate :=
  rows.filterMap fun element =>
    match element.magnet with
    | none => none
    | some magnetLink =>
      let titleLower := toLowerCase element.title
      let matchesQuality := qualityList.length == 0 || qualityList.any fun q => jsIncludes titleLower q
      let matchesCodec := codecList.length == 0 || codecList.any fun c => jsIncludes titleLower c
      let matchesAudio := audioList.length == 0 || audioList.any fun a => jsIncludes titleLower a
      let matchesExclude := excludeList.any fun k => jsIncludes titleLower k
      if matchesQuality && matchesCodec && matchesAudio && !matchesExclude then
        some { title := element.title, magnet := magnetLink }
      else none

/-- `scrapeBitsearch` (lines 172-215): one GET to the search page, then the
row loop; any fetch error yields `[]`.  Returns the candidates and the call log. -/
def scrapeBitsearch (w : World) (query : String)
    (preferredQuality preferredCodec preferredAudio excludeKeywords : Option String) :
    List Candidate × List NetCall :=
  match w.bitsearch query with
  | Except.error _ => ([], [NetCall.bitsearch query])
  | Except.ok rows =>
    (scrapeRows rows (toTermList preferredQuality) (toTermList preferredCodec)
      (toTermList preferredAudio) (toTermList excludeKeywords),
     [NetCall.bitsearch query])

/-- `getTitleFromImdbId` (lines 157-169): one metadata GET; a missing name
field or any error yields `""`. -/
def getTitleFromImdbId (w : World) (imdbId : String) : String × List NetCall :=
  match w.cinemeta imdbId with
  | Except.error _ => ("", [NetCall.cinemeta imdbId])
  | Except.ok none => ("", [NetCall.cinemeta imdbId])
  | Except.ok (some name) => (name, [NetCall.cinemeta imdbId])

/-- The `for (const hash in data)` loop of lines 241-261, over the service's
reported (hash, cached-file-links) entries.  For each entry with a non-empty
`rd` list the stored link is unrestricted FIRST; only then is a candidate
whose magnet URI `includes(hash)` (case-sensitive) looked up, and a stream is
pushed only when one exists.  An unrestrict error is caught by the `try`
wrapping the whole loop: the streams accumulated so far are returned. -/
def cacheLoop (w : World) (realdebridKey : String) (magnets : List Candidate) :
    List (String × List String) → List StreamResult → List NetCall →
    List StreamResult × List NetCall
  | [], streams, calls => (streams, calls)
  | (hash, rd) :: rest, streams, calls =>
    if 0 < rd.length then
      match w.unrestrict realdebridKey (rd.headD "") with
      | Except.error _ => (streams, calls ++ [NetCall.unrestrictLink (rd.headD "")])
      | Except.ok download =>
        match magnets.find? fun m => jsIncludes m.magnet hash with
        | some magnet =>
          cacheLoop w realdebridKey magnets rest
            (streams ++ [{ title := "RD Cached: " ++ magnet.title, url := download }])
            (calls ++ [NetCall.unrestrictLink (rd.headD "")])
        | none =>
          cacheLoop w realdebridKey magnets rest streams
            (calls ++ [NetCall.unrestrictLink (rd.headD "")])
    else cacheLoop w realdebridKey magnets rest streams calls

/-- `checkRealDebridCache` (lines 219-267): derive hashes, bail out with no
call when none, otherwise one batch availability GET (joined by `/`) followed
by the per-hit loop; a batch error yields the empty list. -/
def checkRealDebridCache (w : World) (magnets : List Candidate) (realdebridKey : String) :
    List StreamResult × List NetCall :=
  let hashes := deriveHashes magnets
  if hashes.length == 0 then ([], [])
  else
    let joined := joinSlash hashes
    match w.instantAvailability realdebridKey joined with
    | Except.error _ => ([], [NetCall.instantAvailability joined])
    | Except.ok data =>
      let r := cacheLoop w realdebridKey magnets data [] []
      (r.1, NetCall.instantAvailability joined :: r.2)

/-- `addNonCachedTorrentToRealDebrid` (lines 270-308): take `magnets[0]`
(`none` when the list is empty), POST it to addMagnet; a missing or falsy
response id, or any error on addMagnet/selectFiles, yields `none`; on
success mark all files and return the placeholder stream. -/
def addNonCachedTorrentToRealDebrid (w : World) (magnets : List Candidate)
    (realdebridKey : String) : Option StreamResult × List NetCall :=
  match magnets with
  | [] => (none, [])
  | torrentToAdd :: _ =>
    match w.addMagnet realdebridKey torrentToAdd.magnet with
    | Except.error _ => (none, [NetCall.addMagnet torrentToAdd.magnet])
    | Except.ok idOpt =>
      if jsFalsyStrOpt idOpt then (none, [NetCall.addMagnet torrentToAdd.magnet])
      else
        let torrentId := idOpt.getD ""
        match w.selectFiles realdebridKey torrentId with
        | Except.error _ =>
          (none, [NetCall.addMagnet torrentToAdd.magnet, NetCall.selectFiles torrentId])
        | Except.ok _ =>
          (some { title := "[RD - Downloading]: " ++ torrentToAdd.title,
                  url := "magnet:?xt=urn:btih:" ++ torrentId },
           [NetCall.addMagnet torrentToAdd.magnet, NetCall.selectFiles torrentId])

/-- The response sent by the stream endpoint: either a JSON body with a
`streams` list (and possibly an `error` marker), or the catch-all
`500 Internal Server Error` body of lines 144-147, which has no list. -/
inductive Response where
  | streamsResp (streams : List StreamResult) (error : Option String)
  | internalError
deriving DecidableEq

/-- The `streams` list carried by a response, if any. -/
def Response.streamsList : Response → Option (List StreamResult)
  | Response.streamsResp streams _ => some streams
  | Response.internalError => none

/-- Lines 99-111: split the id on `':'`, then build the search query —
the resolved title for a movie, `title S##E##` (components zero-padded to
two digits) for a series with season and episode present, and `none`
(immediate empty response, no lookup) otherwise. -/
def resolveQuery (w : World) (type id : String) : Option String × List NetCall :=
  let parts := jsSplit id ':'
  let imdbId := parts.getD 0 ""
  let season := parts.get? 1
  let episode := parts.get? 2
  if type == "movie" then
    let r := getTitleFromImdbId w imdbId
    (some r.1, r.2)
  else if type == "series" && jsTruthyStrOpt season && jsTruthyStrOpt episode then
    let r := getTitleFromImdbId w imdbId
    (some (r.1 ++ " S" ++ padStart (season.getD "") 2 '0' ++ "E" ++
           padStart (episode.getD "") 2 '0'), r.2)
  else (none, [])

/-- Lines 95-142, the pipeline after a successful config decode: key check,
query resolution, scrape, cache check, and the fallback branch guarded by
`streams.length == 0` (reached only when the cache result was empty) and the
fallback flag. -/
def handlerPipeline (w : World) (config : Config) (type id : String) :
    Response × List NetCall :=
  if jsFalsyStrOpt config.realdebridKey then
    (Response.streamsResp [] (some "Real-Debrid API key not provided in settings."), [])
  else
    match resolveQuery w type id with
    | (none, calls1) => (Response.streamsResp [] none, calls1)
    | (some searchQuery, calls1) =>
      let scraped := scrapeBitsearch w searchQuery config.quality config.codec
        config.audio config.exclude
      if scraped.1.length == 0 then (Response.streamsResp [] none, calls1 ++ scraped.2)
      else
        let cached := checkRealDebridCache w scraped.1 (config.realdebridKey.getD "")
        if 0 < cached.1.length then
          (Response.streamsResp cached.1 none, calls1 ++ scraped.2 ++ cached.2)
        else if jsFallbackTrue config.fallback then
          let fb := addNonCachedTorrentToRealDebrid w scraped.1 (config.realdebridKey.getD "")
          match fb.1 with
          | some fallbackStream =>
            (Response.streamsResp [fallbackStream] none, calls1 ++ scraped.2 ++ cached.2 ++ fb.2)
          | none => (Response.streamsResp [] none, calls1 ++ scraped.2 ++ cached.2 ++ fb.2)
        else (Response.streamsResp [] none, calls1 ++ scraped.2 ++ cached.2)

/-- The stream endpoint handler (lines 82-148): missing config param and
config-decode failure are handled before the pipeline; a decode failure is
the thrown exception caught by the catch-all, which answers with the 500
body that carries no `streams` list. -/
def streamHandler (w : World) (type id encodedConfig : String) :
    Response × List NetCall :=
  if encodedConfig == "" then
    (Response.streamsResp [] (some "Configuration not provided."), [])
  else
    match w.parseConfig encodedConfig with
    | Except.error _ => (Response.internalError, [])
    | Except.ok config => handlerPipeline w config type id

/- Example collaborator worlds and configurations used to exercise the
pipeline on concrete inputs. -/

/-- A world in which every external interaction fails (every axios call
rejects and the config blob does not decode). -/
def wErrAll : World where
  parseConfig := fun _ => Except.error ()
  cinemeta := fun _ => Except.error ()
  bitsearch := fun _ => Except.error ()
  instantAvailability := fun _ _ => Except.error ()
  unrestrict := fun _ _ => Except.error ()
  addMagnet := fun _ _ => Except.error ()
  selectFiles := fun _ _ => Except.error ()

/-- A decoded configuration with no Real-Debrid key and no preferences. -/
def cfgNoKey : Config :=
  { realdebridKey := none, quality := none, codec := none, audio := none,
    fallback := none, exclude := none }

/-- A decoded configuration with a Real-Debrid key and no preferences. -/
def cfgKeyOnly : Config :=
  { realdebridKey := some "KEY", quality := none, codec := none, audio := none,
    fallback := none, exclude := none }

/-- A world whose config blob decodes to `cfgNoKey`; all network calls fail. -/
def wNoKey : World :=
  { wErrAll with parseConfig := fun _ => Except.ok cfgNoKey }

/-- A world whose config blob decodes to `cfgKeyOnly`; all network calls fail. -/
def wKeyOnly : World :=
  { wErrAll with parseConfig := fun _ => Except.ok cfgKeyOnly }

/-- A world for the series scenario: config decodes with a key, the metadata
lookup resolves the title, and the search page has no result rows. -/
def wSeriesEmptySearch : World :=
  { wErrAll with
    parseConfig := fun _ => Except.ok cfgKeyOnly
    cinemeta := fun _ => Except.ok (some "Breaking Bad")
    bitsearch := fun _ => Except.ok [] }

/-- A world whose cache check reports one cached hash in UPPER case and
whose unrestrict call resolves a direct link. -/
def wUpperHash : World :=
  { wErrAll with
    instantAvailability := fun _ _ => Except.ok [("ABC123", ["lnk"])]
    unrestrict := fun _ _ => Except.ok "https://dl.example/f.mkv" }

/- Helper lemmas about the embedded operations. -/

/-- A char-list is a prefix of itself followed by anything. -/
theorem startsWithChars_self_append (p r : List Char) : startsWithChars p (p ++ r) = true := by
  induction p with
  | nil => rfl
  | cons a as ih => simp [startsWithChars, ih]

/-- `takeWhile` consumes exactly a block that wholly satisfies the predicate
when the continuation starts with a failing element (or is empty). -/
theorem takeWhile_all_append (f : Char → Bool) (h s : List Char)
    (hall : h.all f = true) (hs : ∀ c, s.head? = some c → f c = false) :
    List.takeWhile f (h ++ s) = h := by
  induction h with
  | nil =>
    cases s with
    | nil => rfl
    | cons c cs => simp [List.takeWhile, hs c rfl]
  | cons a as ih =>
    simp only [List.all_cons, Bool.and_eq_true] at hall
    simp [List.takeWhile, hall.1, ih hall.2]

/-- At a position where the marker occurs followed by at least one
alphanumeric character, the regex matches and captures the alnum run. -/
theorem btihAt_marker (rest : List Char)
    (hne : List.takeWhile Char.isAlphanum rest ≠ []) :
    btihAt (btihMarker ++ rest) = some (List.takeWhile Char.isAlphanum rest) := by
  unfold btihAt
  rw [List.drop_left, startsWithChars_self_append]
  simp [List.length_eq_zero, hne]

/-- The scan succeeds at the marker position. -/
theorem extractBtih_marker (rest : List Char)
    (hne : List.takeWhile Char.isAlphanum rest ≠ []) :
    extractBtih (btihMarker ++ rest) = some (List.takeWhile Char.isAlphanum rest) := by
  have hx : btihMarker ++ rest = 'x' :: ("t=urn:btih:".data ++ rest) := rfl
  have hb := btihAt_marker rest hne
  rw [hx] at hb ⊢
  simp only [extractBtih, hb]

/-- If the marker does not occur in a char list, the scan fails. -/
theorem extractBtih_of_no_marker (l : List Char)
    (hnm : containsChars btihMarker l = false) : extractBtih l = none := by
  induction l with
  | nil => rfl
  | cons c rest ih =>
    simp only [containsChars, Bool.or_eq_false_iff] at hnm
    simp [extractBtih, btihAt, hnm.1, ih hnm.2]

/-- Extraction on a URI of the shape `magnet:?xt=urn:btih:<hash><rest>`:
the alphanumeric hash is captured whole. -/
theorem extractHash_pattern (h s : List Char) (hne : h ≠ [])
    (hall : h.all Char.isAlphanum = true)
    (hs : ∀ c, s.head? = some c → Char.isAlphanum c = false) :
    extractHash ⟨"magnet:?xt=urn:btih:".data ++ h ++ s⟩ = some ⟨h⟩ := by
  have htw : List.takeWhile Char.isAlphanum (h ++ s) = h :=
    takeWhile_all_append _ _ _ hall hs
  have hm := extractBtih_marker (h ++ s) (by rw [htw]; exact hne)
  rw [htw] at hm
  have hstep : extractBtih ("magnet:?xt=urn:btih:".data ++ h ++ s) =
      extractBtih (btihMarker ++ (h ++ s)) := rfl
  show (match extractBtih ("magnet:?xt=urn:btih:".data ++ h ++ s) with
    | none => none
    | some run => some (⟨run⟩ : String)) = some ⟨h⟩
  rw [hstep, hm]

/-- `filterMap` with an if-guard is `filter`. -/
theorem filterMap_guard_eq_filter {α : Type} (p : α → Bool) (l : List α) :
    (l.filterMap fun a => if p a then some a else none) = l.filter p := by
  induction l with
  | nil => rfl
  | cons a as ih => cases hp : p a <;> simp [List.filterMap_cons, List.filter_cons, hp, ih]

/-- The title lookup performs exactly one metadata call. -/
theorem getTitle_calls (w : World) (i : String) :
    (getTitleFromImdbId w i).2 = [NetCall.cinemeta i] := by
  unfold getTitleFromImdbId
  cases h : w.cinemeta i with
  | error e => rfl
  | ok o => cases o <;> rfl

/-- The scrape performs exactly one search-page call. -/
theorem scrape_calls (w : World) (q : String) (a b c d : Option String) :
    (scrapeBitsearch w q a b c d).2 = [NetCall.bitsearch q] := by
  unfold scrapeBitsearch
  cases h : w.bitsearch q <;> rfl

/-- Query resolution performs no call or exactly one metadata call. -/
theorem resolveQuery_calls (w : World) (t i : String) :
    (resolveQuery w t i).2 = [] ∨
      (resolveQuery w t i).2 = [NetCall.cinemeta ((jsSplit i ':').getD 0 "")] := by
  unfold resolveQuery
  dsimp only
  split
  · simp [getTitle_calls]
  · split
    · simp [getTitle_calls]
    · simp

/-- Every call the cache loop adds to the log is an unrestrict call. -/
theorem cacheLoop_calls_mem (w : World) (k : String) (ms : List Candidate) :
    ∀ (data : List (String × List String)) (streams : List StreamResult)
      (calls : List NetCall) (x : NetCall),
      x ∈ (cacheLoop w k ms data streams calls).2 →
      x ∈ calls ∨ ∃ l, x = NetCall.unrestrictLink l := by
  intro data
  induction data with
  | nil => intro streams calls x hx; exact Or.inl hx
  | cons entry rest ih =>
    intro streams calls x hx
    obtain ⟨hash, rd⟩ := entry
    by_cases hrd : 0 < rd.length
    · unfold cacheLoop at hx
      rw [if_pos hrd] at hx
      cases hu : w.unrestrict k (rd.headD "") with
      | error e =>
        rw [hu] at hx
        simp only [List.mem_append, List.mem_singleton] at hx
        rcases hx with hx | hx
        · exact Or.inl hx
        · exact Or.inr ⟨_, hx⟩
      | ok dl =>
        rw [hu] at hx
        cases hf : ms.find? fun m => jsIncludes m.magnet hash with
        | some magnet =>
          rw [hf] at hx
          rcases ih _ _ _ hx with hx | hx
          · simp only [List.mem_append, List.mem_singleton] at hx
            rcases hx with hx | hx
            · exact Or.inl hx
            · exact Or.inr ⟨_, hx⟩
          · exact Or.inr hx
        | none =>
          rw [hf] at hx
          rcases ih _ _ _ hx with hx | hx
          · simp only [List.mem_append, List.mem_singleton] at hx
            rcases hx with hx | hx
            · exact Or.inl hx
            · exact Or.inr ⟨_, hx⟩
          · exact Or.inr hx
    · unfold cacheLoop at hx
      rw [if_neg hrd] at hx
      exact ih _ _ _ hx

/-- Every call the cache check makes is the batch call or an unrestrict. -/
theorem checkCache_calls_shape (w : World) (ms : List Candidate) (k : String) (x : NetCall)
    (hx : x ∈ (checkRealDebridCache w ms k).2) :
    (∃ s, x = NetCall.instantAvailability s) ∨ ∃ l, x = NetCall.unrestrictLink l := by
  unfold checkRealDebridCache at hx
  by_cases hlen : (((deriveHashes ms).length == 0) : Bool) = true
  · simp only [hlen, if_true] at hx
    simp at hx
  · simp only [hlen] at hx
    rw [if_neg (by simp [hlen])] at hx
    cases hia : w.instantAvailability k (joinSlash (deriveHashes ms)) with
    | error e =>
      rw [hia] at hx
      simp only [List.mem_singleton] at hx
      exact Or.inl ⟨_, hx⟩
    | ok data =>
      rw [hia] at hx
      simp only [List.mem_cons] at hx
      rcases hx with hx | hx
      · exact Or.inl ⟨_, hx⟩
      · rcases cacheLoop_calls_mem w k ms data [] [] x hx with hx | hx
        · simp at hx
        · exact Or.inr hx

/-- Processing a single reported hit: the stored link is unrestricted, and a
stream is pushed only when some candidate magnet contains the hash. -/
theorem cacheLoop_single_hit (w : World) (key : String) (magnets : List Candidate)
    (hash link dl : String) (streams : List StreamResult) (calls : List NetCall)
    (hun : w.unrestrict key link = Except.ok dl) :
    cacheLoop w key magnets [(hash, [link])] streams calls =
      (match magnets.find? fun m => jsIncludes m.magnet hash with
       | some magnet => streams ++ [{ title := "RD Cached: " ++ magnet.title, url := dl }]
       | none => streams,
       calls ++ [NetCall.unrestrictLink link]) := by
  cases hfind : magnets.find? fun m => jsIncludes m.magnet hash with
  | none => simp [cacheLoop, hun, hfind]
  | some magnet => simp [cacheLoop, hun, hfind]

/-- An addMagnet call appears in the pipeline log only from the fallback
branch, which runs only when the fallback flag holds and the cache check
produced no stream. -/
theorem pipeline_addMagnet_only_fallback (w : World) (cfg : Config) (t i m : String)
    (hx : NetCall.addMagnet m ∈ (handlerPipeline w cfg t i).2) :
    jsFallbackTrue cfg.fallback = true ∧
      ∃ q, (resolveQuery w t i).1 = some q ∧
        (checkRealDebridCache w
          (scrapeBitsearch w q cfg.quality cfg.codec cfg.audio cfg.exclude).1
          (cfg.realdebridKey.getD "")).1 = [] := by
  have hnotc1 : NetCall.addMagnet m ∉ (resolveQuery w t i).2 := by
    intro hmem
    rcases resolveQuery_calls w t i with h | h <;> rw [h] at hmem <;> simp at hmem
  have hnotsc : ∀ q, NetCall.addMagnet m ∉
      (scrapeBitsearch w q cfg.quality cfg.codec cfg.audio cfg.exclude).2 := by
    intro q hmem
    rw [scrape_calls] at hmem
    simp at hmem
  have hnotcc : ∀ ms k, NetCall.addMagnet m ∉ (checkRealDebridCache w ms k).2 := by
    intro ms k hmem
    rcases checkCache_calls_shape w ms k _ hmem with ⟨s, hs⟩ | ⟨l, hl⟩
    · simp at hs
    · simp at hl
  unfold handlerPipeline at hx
  dsimp only at hx
  split at hx
  · simp at hx
  · split at hx
    · rename_i calls1 heq
      have hc1 : NetCall.addMagnet m ∉ calls1 := by
        intro hmem
        exact hnotc1 (by rw [heq]; exact hmem)
      exact absurd hx hc1
    · rename_i q calls1 heq
      have hc1 : NetCall.addMagnet m ∉ calls1 := by
        intro hmem
        exact hnotc1 (by rw [heq]; exact hmem)
      split at hx
      · rw [List.mem_append] at hx
        rcases hx with hx | hx
        · exact absurd hx hc1
        · exact absurd hx (hnotsc q)
      · split at hx
        · rw [List.mem_append, List.mem_append] at hx
          rcases hx with (hx | hx) | hx
          · exact absurd hx hc1
          · exact absurd hx (hnotsc q)
          · exact absurd hx (hnotcc _ _)
        · rename_i hclen
          have hcempty : (checkRealDebridCache w
              (scrapeBitsearch w q cfg.quality cfg.codec cfg.audio cfg.exclude).1
              (cfg.realdebridKey.getD "")).1 = [] := by
            rcases List.eq_nil_or_concat (checkRealDebridCache w
                (scrapeBitsearch w q cfg.quality cfg.codec cfg.audio cfg.exclude).1
                (cfg.realdebridKey.getD "")).1 with h | ⟨l2, a, h⟩
            · exact h
            · exact absurd (by rw [h]; simp) hclen
          split at hx
          · rename_i hfb
            split at hx
            · exact ⟨hfb, q, by rw [heq], hcempty⟩
            · exact ⟨hfb, q, by rw [heq], hcempty⟩
          · rw [List.mem_append, List.mem_append] at hx
            rcases hx with (hx | hx) | hx
            · exact absurd hx hc1
            · exact absurd hx (hnotsc q)
            · exact absurd hx (hnotcc _ _)

/-- Whatever branch the pipeline takes after a successful decode, the
response carries a streams list. -/
theorem handlerPipeline_has_list (w : World) (cfg : Config) (t i : String) :
    ((handlerPipeline w cfg t i).1.streamsList).isSome = true := by
  unfold handlerPipeline
  dsimp only
  split
  · rfl
  · split
    · rfl
    · split
      · rfl
      · split
        · rfl
        · split
          · split <;> rfl
          · rfl

/-- Claim C1 (corrected), counterexample: the filter does NOT fall back to
the unfiltered list when the quality terms match no candidate title — on a
one-candidate list with a non-matching quality term the result is empty, not
the input list. -/
theorem claim_C1_counterexample :
    ¬ (scrapeRows (List.map Candidate.toRow
        [{ title := "Movie.720p.x264", magnet := "magnet:?xt=urn:btih:abc" }])
        ["1080p"] [] [] [] =
      [{ title := "Movie.720p.x264", magnet := "magnet:?xt=urn:btih:abc" }]) := by
  decide

/-- Claim C1 (amended): the filter is strict — for every row list and every
policy whose quality term list is non-empty and matches no row title, the
result is the EMPTY list, not the unfiltered input. -/
theorem claim_C1_strict_quality_filter (rows : List Row)
    (qualityList codecList audioList excludeList : List String)
    (hq : qualityList ≠ [])
    (hnone : ∀ r ∈ rows, ∀ q ∈ qualityList, jsIncludes (toLowerCase r.title) q = false) :
    scrapeRows rows qualityList codecList audioList excludeList = [] := by
  have hlen : ((qualityList.length == 0) : Bool) = false := by
    cases qualityList with
    | nil => exact absurd rfl hq
    | cons a as => rfl
  revert hnone
  induction rows with
  | nil => intro _; rfl
  | cons r rs ih =>
    intro hnone
    have hr := hnone r (List.mem_cons_self r rs)
    have hrs : ∀ x ∈ rs, ∀ q ∈ qualityList, jsIncludes (toLowerCase x.title) q = false :=
      fun x hx => hnone x (List.mem_cons_of_mem r hx)
    have hany : (qualityList.any fun q => jsIncludes (toLowerCase r.title) q) = false := by
      rw [List.any_eq_false]
      intro q hqmem
      simp [hr q hqmem]
    have htail := ih hrs
    unfold scrapeRows at htail ⊢
    rw [List.filterMap_cons]
    cases hm : r.magnet with
    | none => simpa [hm] using htail
    | some magnetLink => simpa [hm, hlen, hany] using htail

/-- Witness for C1: a concrete candidate whose title lacks the only quality
term is filtered to the empty list. -/
theorem claim_C1_witness :
    scrapeRows [{ title := "Movie.720p.x264", magnet := some "magnet:?xt=urn:btih:abc" }]
      ["1080p"] [] [] [] = [] :=
  claim_C1_strict_quality_filter _ _ _ _ _ (by decide) (by decide)

/-- Claim C2 (corrected), counterexample: on an input whose configuration
blob fails to decode, the thrown exception escapes to the catch-all and the
response is the 500 internal-error body, which carries NO streams list. -/
theorem claim_C2_counterexample :
    (streamHandler wErrAll "movie" "tt0111161" "notbase64").1 = Response.internalError ∧
    ((streamHandler wErrAll "movie" "tt0111161" "notbase64").1.streamsList) = none := by
  exact ⟨rfl, rfl⟩

/-- Claim C2 (amended): whenever the request does not hit the catch-all —
the config param is absent, or the config blob decodes successfully — the
response always carries a (possibly empty) streams list; only a decode
exception produces the hard 500 failure without a list. -/
theorem claim_C2_streams_list (w : World) (t i enc : String)
    (h : enc = "" ∨ ∃ cfg, w.parseConfig enc = Except.ok cfg) :
    ((streamHandler w t i enc).1.streamsList).isSome = true := by
  unfold streamHandler
  rcases h with h | ⟨cfg, h⟩
  · rw [h]
    rfl
  · by_cases he : (enc == "") = true
    · rw [if_pos he]
      rfl
    · rw [if_neg he, h]
      exact handlerPipeline_has_list w cfg t i

/-- Witness for C2: with a decodable config every pipeline outcome carries a
streams list. -/
theorem claim_C2_witness :
    ((streamHandler wKeyOnly "movie" "tt0111161" "blob").1.streamsList).isSome = true :=
  claim_C2_streams_list wKeyOnly "movie" "tt0111161" "blob" (Or.inr ⟨cfgKeyOnly, rfl⟩)

/-- Claim C3: with all include term lists empty, the filter keeps exactly the
candidates whose lower-cased title contains no exclude term — it equals the
input minus the exclude matches. -/
theorem claim_C3_empty_includes_exclude_only (cands : List Candidate)
    (excludeList : List String) :
    scrapeRows (cands.map Candidate.toRow) [] [] [] excludeList =
      cands.filter fun c => !(excludeList.any fun k => jsIncludes (toLowerCase c.title) k) := by
  unfold scrapeRows
  rw [List.filterMap_map]
  have hfun : (cands.filterMap fun c : Candidate =>
      if !(excludeList.any fun k => jsIncludes (toLowerCase c.title) k) then some c
      else none) = cands.filter fun c =>
        !(excludeList.any fun k => jsIncludes (toLowerCase c.title) k) :=
    filterMap_guard_eq_filter _ _
  exact Eq.trans rfl hfun

/-- Claim C4: hash extraction is a pure function of the magnet URI — on a
URI `magnet:?xt=urn:btih:<hash><rest>` (alphanumeric hash, rest not starting
alphanumeric) it yields exactly that hash; on a URI not containing the
marker it yields nothing; and a candidate with no extractable hash
contributes nothing to the cache check's hash set. -/
theorem claim_C4_hash_extraction :
    (∀ (h s : List Char), h ≠ [] → h.all Char.isAlphanum = true →
      (∀ c, s.head? = some c → Char.isAlphanum c = false) →
      extractHash ⟨"magnet:?xt=urn:btih:".data ++ h ++ s⟩ = some ⟨h⟩) ∧
    (∀ uri : String, containsChars btihMarker uri.data = false → extractHash uri = none) ∧
    (∀ (m : Candidate) (ms : List Candidate), extractHash m.magnet = none →
      deriveHashes (m :: ms) = deriveHashes ms) := by
  refine ⟨extractHash_pattern, ?_, ?_⟩
  · intro uri h
    unfold extractHash
    rw [extractBtih_of_no_marker uri.data h]
  · intro m ms h
    simp [deriveHashes, List.filterMap_cons, h]

/-- Witness for C4: the spec's example URI yields `ABC123`; a URI without
the marker yields nothing and its candidate is dropped from the hash set. -/
theorem claim_C4_witness :
    extractHash "magnet:?xt=urn:btih:ABC123&dn=X" = some "ABC123" ∧
    extractHash "magnet:?dn=X" = none ∧
    deriveHashes [{ title := "t", magnet := "magnet:?dn=X" },
                  { title := "u", magnet := "magnet:?xt=urn:btih:ABC123" }] =
      deriveHashes [{ title := "u", magnet := "magnet:?xt=urn:btih:ABC123" }] := by
  refine ⟨?_, ?_, ?_⟩
  · exact claim_C4_hash_extraction.1 "ABC123".data "&dn=X".data (by decide) (by decide)
      (by decide)
  · exact claim_C4_hash_extraction.2.1 "magnet:?dn=X" (by decide)
  · exact claim_C4_hash_extraction.2.2 { title := "t", magnet := "magnet:?dn=X" } _ (by decide)
/-- Claim C5: when no content hash is extractable from the candidate list,
the cache check returns the empty list and performs no network call at all. -/
theorem claim_C5_no_hashes_no_call (w : World) (magnets : List Candidate) (key : String)
    (h : deriveHashes magnets = []) :
    checkRealDebridCache w magnets key = ([], []) := by
  simp [checkRealDebridCache, h]

/-- Witness for C5: a candidate with no `xt=urn:btih:` parameter yields an
empty hash set, an empty result and an empty call log. -/
theorem claim_C5_witness :
    checkRealDebridCache wErrAll [{ title := "t", magnet := "magnet:?dn=X" }] "KEY" =
      ([], []) :=
  claim_C5_no_hashes_no_call wErrAll _ "KEY" (by decide)

/-- Claim C6: fallback acquisition returns `(none, no calls)` on the empty
candidate list; on a non-empty list it submits exactly the first candidate's
magnet; it yields `none` on an addMagnet failure, a falsy response id, or a
selectFiles failure; and the handler pipeline issues an addMagnet call only
when the fallback flag is enabled and the cache check returned no stream. -/
theorem claim_C6_fallback_acquisition :
    (∀ (w : World) (k : String), addNonCachedTorrentToRealDebrid w [] k = (none, [])) ∧
    (∀ (w : World) (k : String) (c : Candidate) (cs : List Candidate),
      ((addNonCachedTorrentToRealDebrid w (c :: cs) k).2).head? =
        some (NetCall.addMagnet c.magnet)) ∧
    (∀ (w : World) (k : String) (c : Candidate) (cs : List Candidate) (e : Unit),
      w.addMagnet k c.magnet = Except.error e →
      (addNonCachedTorrentToRealDebrid w (c :: cs) k).1 = none) ∧
    (∀ (w : World) (k : String) (c : Candidate) (cs : List Candidate) (idOpt : Option String),
      w.addMagnet k c.magnet = Except.ok idOpt → jsFalsyStrOpt idOpt = true →
      (addNonCachedTorrentToRealDebrid w (c :: cs) k).1 = none) ∧
    (∀ (w : World) (k : String) (c : Candidate) (cs : List Candidate)
      (idOpt : Option String) (e : Unit),
      w.addMagnet k c.magnet = Except.ok idOpt → jsFalsyStrOpt idOpt = false →
      w.selectFiles k (idOpt.getD "") = Except.error e →
      (addNonCachedTorrentToRealDebrid w (c :: cs) k).1 = none) ∧
    (∀ (w : World) (cfg : Config) (t i m : String),
      NetCall.addMagnet m ∈ (handlerPipeline w cfg t i).2 →
      jsFallbackTrue cfg.fallback = true ∧
        ∃ q, (resolveQuery w t i).1 = some q ∧
          (checkRealDebridCache w
            (scrapeBitsearch w q cfg.quality cfg.codec cfg.audio cfg.exclude).1
            (cfg.realdebridKey.getD "")).1 = []) := by
  refine ⟨fun w k => rfl, ?_, ?_, ?_, ?_, ?_⟩
  · intro w k c cs
    cases ha : w.addMagnet k c.magnet with
    | error e => simp [addNonCachedTorrentToRealDebrid, ha]
    | ok idOpt =>
      by_cases hf : jsFalsyStrOpt idOpt = true
      · simp [addNonCachedTorrentToRealDebrid, ha, hf]
      · cases hs : w.selectFiles k (idOpt.getD "") <;>
          simp [addNonCachedTorrentToRealDebrid, ha, hf, hs]
  · intro w k c cs e h
    simp [addNonCachedTorrentToRealDebrid, h]
  · intro w k c cs idOpt h hf
    simp [addNonCachedTorrentToRealDebrid, h, hf]
  · intro w k c cs idOpt e h hf hs
    simp [addNonCachedTorrentToRealDebrid, h, hf, hs]
  · exact fun w cfg t i m hx => pipeline_addMagnet_only_fallback w cfg t i m hx

/-- Witness for C6: the empty list yields `(none, [])` without calls; on a
one-candidate list the first (and only) call is the addMagnet of that
candidate's magnet, and a failing addMagnet yields no stream. -/
theorem claim_C6_witness :
    addNonCachedTorrentToRealDebrid wErrAll [] "KEY" = (none, []) ∧
    ((addNonCachedTorrentToRealDebrid wErrAll
        [{ title := "T", magnet := "magnet:?xt=urn:btih:abc" }] "KEY").2).head? =
      some (NetCall.addMagnet "magnet:?xt=urn:btih:abc") ∧
    (addNonCachedTorrentToRealDebrid wErrAll
        [{ title := "T", magnet := "magnet:?xt=urn:btih:abc" }] "KEY").1 = none := by
  refine ⟨?_, ?_, ?_⟩
  · exact claim_C6_fallback_acquisition.1 wErrAll "KEY"
  · exact claim_C6_fallback_acquisition.2.1 wErrAll "KEY"
      { title := "T", magnet := "magnet:?xt=urn:btih:abc" } []
  · exact claim_C6_fallback_acquisition.2.2.1 wErrAll "KEY"
      { title := "T", magnet := "magnet:?xt=urn:btih:abc" } [] () rfl

/-- Claim C7: when the decoded configuration lacks the debrid credential,
the handler immediately returns an empty stream list with the descriptive
error marker and makes no network call. -/
theorem claim_C7_missing_key (w : World) (t i enc : String) (cfg : Config)
    (henc : (enc == "") = false) (hp : w.parseConfig enc = Except.ok cfg)
    (hkey : jsFalsyStrOpt cfg.realdebridKey = true) :
    streamHandler w t i enc =
      (Response.streamsResp [] (some "Real-Debrid API key not provided in settings."), []) := by
  unfold streamHandler
  rw [if_neg (by simp [henc]), hp]
  dsimp only
  unfold handlerPipeline
  rw [if_pos hkey]

/-- Witness for C7: a concrete keyless config produces the marker and an
empty call log. -/
theorem claim_C7_witness :
    streamHandler wNoKey "movie" "tt0111161" "blob" =
      (Response.streamsResp [] (some "Real-Debrid API key not provided in settings."), []) :=
  claim_C7_missing_key wNoKey "movie" "tt0111161" "blob" cfgNoKey (by decide) rfl (by decide)

/-- Claim C9 (implicit): for a type that is neither "movie" nor a "series"
with both season and episode components present, the handler returns the
empty stream list immediately with no network call of any kind. -/
theorem claim_C9_invalid_type_empty (w : World) (t i enc : String) (cfg : Config)
    (henc : (enc == "") = false) (hp : w.parseConfig enc = Except.ok cfg)
    (hkey : jsFalsyStrOpt cfg.realdebridKey = false)
    (hmov : (t == "movie") = false)
    (hser : (t == "series" && jsTruthyStrOpt ((jsSplit i ':').get? 1) &&
      jsTruthyStrOpt ((jsSplit i ':').get? 2)) = false) :
    streamHandler w t i enc = (Response.streamsResp [] none, []) := by
  have hq : resolveQuery w t i = (none, []) := by
    unfold resolveQuery
    dsimp only
    rw [if_neg (by rw [hmov]; decide), if_neg (by rw [hser]; decide)]
  unfold streamHandler
  rw [if_neg (by simp [henc]), hp]
  dsimp only
  unfold handlerPipeline
  rw [if_neg (by simp [hkey]), hq]

/-- Witness for C9: a series id with no episode component yields the empty
response and an empty call log. -/
theorem claim_C9_witness :
    streamHandler wKeyOnly "series" "tt0903747:1" "blob" =
      (Response.streamsResp [] none, []) :=
  claim_C9_invalid_type_empty wKeyOnly "series" "tt0903747:1" "blob" cfgKeyOnly
    (by decide) rfl (by decide) (by decide) (by decide)
/-- Claim C8: a series request with season and episode builds the query
`<title> S##E##` (two-digit zero-padded), and when the search yields no
candidate the handler answers the empty list having made exactly the title
lookup and the search call — no cache check, no fallback. -/
theorem claim_C8_series_query (w : World) (i enc : String) (cfg : Config)
    (imdb season episode title : String)
    (henc : (enc == "") = false)
    (hp : w.parseConfig enc = Except.ok cfg)
    (hkey : jsFalsyStrOpt cfg.realdebridKey = false)
    (hsplit : jsSplit i ':' = [imdb, season, episode])
    (hseason : (season == "") = false)
    (hepisode : (episode == "") = false)
    (htitle : w.cinemeta imdb = Except.ok (some title))
    (hscrape : (scrapeBitsearch w
      (title ++ " S" ++ padStart season 2 '0' ++ "E" ++ padStart episode 2 '0')
      cfg.quality cfg.codec cfg.audio cfg.exclude).1 = []) :
    streamHandler w "series" i enc =
      (Response.streamsResp [] none,
       [NetCall.cinemeta imdb,
        NetCall.bitsearch
          (title ++ " S" ++ padStart season 2 '0' ++ "E" ++ padStart episode 2 '0')]) := by
  have hgt : getTitleFromImdbId w imdb = (title, [NetCall.cinemeta imdb]) := by
    unfold getTitleFromImdbId
    rw [htitle]
  have hrq : resolveQuery w "series" i =
      (some (title ++ " S" ++ padStart season 2 '0' ++ "E" ++ padStart episode 2 '0'),
       [NetCall.cinemeta imdb]) := by
    unfold resolveQuery
    dsimp only
    rw [hsplit]
    rw [if_neg (by decide)]
    rw [if_pos (by simp [jsTruthyStrOpt, hseason, hepisode])]
    simp [hgt]
  unfold streamHandler
  rw [if_neg (by simp [henc]), hp]
  dsimp only
  unfold handlerPipeline
  rw [if_neg (by simp [hkey]), hrq]
  dsimp only
  rw [hscrape]
  simp [scrape_calls]

/-- Witness for C8: id `tt0903747:1:1` with resolved title `Breaking Bad`
gives the query `Breaking Bad S01E01`; with zero search rows the answer is
empty and exactly two calls were made. -/
theorem claim_C8_witness :
    streamHandler wSeriesEmptySearch "series" "tt0903747:1:1" "blob" =
      (Response.streamsResp [] none,
       [NetCall.cinemeta "tt0903747", NetCall.bitsearch "Breaking Bad S01E01"]) :=
  claim_C8_series_query wSeriesEmptySearch "tt0903747:1:1" "blob" cfgKeyOnly
    "tt0903747" "1" "1" "Breaking Bad" (by decide) rfl (by decide) (by decide)
    (by decide) (by decide) rfl (by decide)

/-- Claim C10 (implicit): for a hash the service reports as cached, the
stored link is unrestricted first, and a stream is emitted only when some
candidate's magnet URI contains the reported hash string verbatim
(case-sensitive, first such candidate supplying the title); when no
candidate contains it the confirmed hit is dropped even though the
unrestrict call already happened. -/
theorem claim_C10_case_sensitive_hash_match (w : World) (magnets : List Candidate)
    (key hash link dl : String)
    (hhs : deriveHashes magnets ≠ [])
    (hia : w.instantAvailability key (joinSlash (deriveHashes magnets)) =
      Except.ok [(hash, [link])])
    (hun : w.unrestrict key link = Except.ok dl) :
    checkRealDebridCache w magnets key =
      (match magnets.find? fun m => jsIncludes m.magnet hash with
       | some magnet => [{ title := "RD Cached: " ++ magnet.title, url := dl }]
       | none => [],
       [NetCall.instantAvailability (joinSlash (deriveHashes magnets)),
        NetCall.unrestrictLink link]) := by
  have hlen : (((deriveHashes magnets).length == 0) : Bool) = false := by
    cases hd : deriveHashes magnets with
    | nil => exact absurd hd hhs
    | cons a as => rfl
  cases hfind : magnets.find? fun m => jsIncludes m.magnet hash with
  | none =>
    simp [checkRealDebridCache, hlen, hia,
      cacheLoop_single_hit w key magnets hash link dl [] [] hun, hfind]
  | some magnet =>
    simp [checkRealDebridCache, hlen, hia,
      cacheLoop_single_hit w key magnets hash link dl [] [] hun, hfind]

/-- Witness for C10: the candidate's magnet holds the hash in lower case but
the service reports it in UPPER case; the unrestrict call is made and the
hit is then dropped — empty output despite a confirmed, resolved hit. -/
theorem claim_C10_witness :
    checkRealDebridCache wUpperHash
      [{ title := "X", magnet := "magnet:?xt=urn:btih:abc123" }] "KEY" =
      ([], [NetCall.instantAvailability "abc123", NetCall.unrestrictLink "lnk"]) := by
  have h := claim_C10_case_sensitive_hash_match wUpperHash
    [{ title := "X", magnet := "magnet:?xt=urn:btih:abc123" }]
    "KEY" "ABC123" "lnk" "https://dl.example/f.mkv" (by decide) rfl rfl
  exact h.trans (by decide)
